import Mathlib

/-!
Shallow embedding of the naming-and-manifest layer of swarm/api/api.go:
the TLD-scoped MultiResolver resolver chain, Api.Resolve, Api.Put and
Api.Get (with mutable-resource dereferencing), the Api.AppendFile
combined-buffer computation, and the leading-slash trim shared by the
file-editing operations.  Collaborators that the source file uses but
does not define (the content store, the manifest trie, the resource
handler, the multihash codec, the URI observables) are modelled from the
specification and marked as such.
-/

/-- Content hash produced by resolver backends (common.Hash, value abstracted). -/
abbrev Hash := Nat

/-- Content-store key (storage.Key, value abstracted). -/
abbrev Key := Nat

/-- Scan used by Go path.Ext: walk the path backwards, stop at a slash,
and on the final dot return the suffix from that dot on.  The input is
the reversed character list; the accumulator holds the characters already
passed, in original order. -/
def pathExtRev (acc : List Char) : List Char → Option (List Char)
  | [] => none
  | c :: rest =>
    if c = '/' then none
    else if c = '.' then some (c :: acc)
    else pathExtRev (c :: acc) rest

/-- Go path.Ext: the suffix beginning at the final dot in the final
slash-separated element of the path; empty if there is no dot. -/
def pathExt (s : String) : String :=
  match pathExtRev [] s.data.reverse with
  | none => ""
  | some l => ⟨l⟩

/-- A resolver backend (the ResolveValidator interface restricted to the
Resolve capability used by MultiResolver.Resolve).  Go returns a hash and
an error value; both are returned, so the model keeps the pair. -/
structure ResolveValidator where
  resolve : String → Hash × Option String

/-- Errors surfaced by MultiResolver.Resolve: either no chain is
registered (NoResolverError) or the selected chain's backends failed. -/
inductive ResolveError where
  | noResolver (tld : String)
  | backend (msg : String)
deriving DecidableEq, Repr

/-- MultiResolver: a map from TLD token to the ordered backend chain for
that TLD.  none models a key absent from the Go map; the Go zero-value
read m.resolvers[""] is (resolvers "").getD []. -/
structure MultiResolver where
  resolvers : String → Option (List ResolveValidator)

/-- MultiResolver.getResolveValidator: take the default chain (zero value
if absent); extract the TLD with path.Ext; if the extension is nonempty,
strip its dot and return the chain registered for that exact TLD when one
exists; otherwise fall back to the default chain, failing with
NoResolverError when the default chain is empty. -/
def MultiResolver.getResolveValidator (m : MultiResolver) (name : String) :
    Except ResolveError (List ResolveValidator) :=
  let rs := (m.resolvers "").getD []
  let tld := pathExt name
  match (if tld = "" then none else m.resolvers (tld.drop 1)) with
  | some rstld => .ok rstld
  | none =>
    if rs.length = 0 then
      .error (.noResolver (if tld = "" then tld else tld.drop 1))
    else .ok rs

/-- The backend loop of MultiResolver.Resolve: h and err carry the last
backend's result; a backend that returns no error ends the loop; when the
list is exhausted the carried pair is returned. -/
def MultiResolver.resolveLoop (name : String) (acc : Hash × Option ResolveError) :
    List ResolveValidator → Hash × Option ResolveError
  | [] => acc
  | r :: rest =>
    match r.resolve name with
    | (h, none) => (h, none)
    | (h, some e) => MultiResolver.resolveLoop name (h, some (.backend e)) rest

/-- MultiResolver.Resolve: select the chain with getResolveValidator and
run the backend loop over it; the zero hash and nil error are the initial
values of the named returns. -/
def MultiResolver.Resolve (m : MultiResolver) (addr : String) : Hash × Option ResolveError :=
  match m.getResolveValidator addr with
  | .error e => (0, some e)
  | .ok rs => MultiResolver.resolveLoop addr (0, none) rs

/-- Modelled from the spec: the TLD token of a name — the trailing dotted
suffix without its dot, empty when there is no dot. -/
def specTLD (name : String) : String := (pathExt name).drop 1

/-- The full result of one backend call, with its error wrapped. -/
def backendResult (r : ResolveValidator) (name : String) : Hash × Option ResolveError :=
  ((r.resolve name).1, ((r.resolve name).2).map ResolveError.backend)

/-- Modelled from the spec (for the refinement comparison): select the
chain registered for the name's exact TLD, otherwise fall back to the
default chain, failing with NoResolver(tld) when neither exists. -/
def specSelectChain (m : MultiResolver) (name : String) :
    Except ResolveError (List ResolveValidator) :=
  match m.resolvers (specTLD name) with
  | some c => .ok c
  | none =>
    match m.resolvers "" with
    | some c => .ok c
    | none => .error (.noResolver (specTLD name))

/-- Modelled from the spec (for the refinement comparison): try the
chain's backends in order, returning the first success; when all fail,
return the last backend's failure. -/
def specTryChain (name : String) : List ResolveValidator → Hash × Option ResolveError
  | [] => (0, none)
  | r :: rest =>
    if ((r.resolve name).2).isNone then backendResult r name
    else
      match rest with
      | [] => backendResult r name
      | _ :: _ => specTryChain name rest

/-- Modelled from the spec (for the refinement comparison): resolution is
chain selection followed by in-order backend resolution. -/
def specResolve (m : MultiResolver) (name : String) : Hash × Option ResolveError :=
  match specSelectChain m name with
  | .error e => (0, some e)
  | .ok c => specTryChain name c

/-- Modelled from the spec: the URI observables consumed by Api.Resolve
(uri.go is not under src).  immutable classifies the scheme; key is the
address parsed as a fixed-length hex content hash, none when the address
is not a well-formed hash; addr is the address text. -/
structure URI where
  immutable : Bool
  key : Option Key
  addr : String

/-- Failures of Api.Resolve: an immutable address that is not a content
hash, a name with no DNS configured, or a surfaced resolver-chain error. -/
inductive ResolveApiError where
  | invalidAddress (addr : String)
  | noDNS (addr : String)
  | dnsFail (msg : String)
deriving DecidableEq, Repr

/-- Api.Resolve: immutable URIs must parse as a hash and are never sent
to the resolver; without a DNS resolver the address must parse as a hash;
otherwise delegate to the resolver and, on its failure, fall back to hash
parsing before surfacing the resolver's error. -/
def Api.Resolve (dns : Option (String → Hash × Option String)) (uri : URI) :
    Except ResolveApiError Key :=
  if uri.immutable then
    match uri.key with
    | none => .error (.invalidAddress uri.addr)
    | some k => .ok k
  else
    match dns with
    | none =>
      match uri.key with
      | none => .error (.noDNS uri.addr)
      | some k => .ok k
    | some resolve =>
      match resolve uri.addr with
      | (h, none) => .ok h
      | (_, some e) =>
        match uri.key with
        | none => .error (.dnsFail e)
        | some k => .ok k

/-- The hash field of a manifest entry: per the spec it is a
content-hash-or-name string — a hex content hash for ordinary entries, a
resource name for resource-pointer entries. -/
inductive EntryHash where
  | key (k : Key)
  | name (s : String)
deriving DecidableEq, Repr

/-- A manifest entry as used by api.go: path, hash string, content type
and disambiguation status. -/
structure ManifestEntry where
  path : String
  hash : EntryHash
  contentType : String
  status : Nat
deriving DecidableEq, Repr

/-- Modelled from the spec: common.Hex2Bytes applied to the entry's hash
string recovers the content key when the string is a hex digest; a
resource name is not a valid digest (modelled as key 0). -/
def EntryHash.toKey : EntryHash → Key
  | .key k => k
  | .name _ => 0

/-- Modelled from the spec: the entry's hash string as handed verbatim to
the resource collaborator as a resource name. -/
def EntryHash.toName : EntryHash → String
  | .key k => toString k
  | .name s => s

/-- A stored block: raw content bytes or a (serialized) manifest.
Manifest serialization lives in manifest.go, which is not under src, so
blocks are kept structured. -/
inductive Block where
  | raw (data : List Nat)
  | manifest (entries : List ManifestEntry)
deriving DecidableEq, Repr

/-- Modelled from the spec: the content-store collaborator (dpa).  store
returns a key under which retrieve finds the block; keys index the
sequence of stored blocks. -/
structure DPA where
  blocks : List Block
deriving DecidableEq, Repr

/-- Store a block, returning its key and the extended store. -/
def DPA.store (d : DPA) (b : Block) : Key × DPA :=
  (d.blocks.length, ⟨d.blocks ++ [b]⟩)

/-- Retrieve the block stored under a key. -/
def DPA.retrieve (d : DPA) (k : Key) : Option Block :=
  d.blocks[k]?

/-- The bytes yielded by the lazy reader over a content key: the raw
block's bytes, or nothing when the key does not name raw content. -/
def DPA.readerBytes (d : DPA) (k : Key) : List Nat :=
  match d.retrieve k with
  | some (.raw data) => data
  | _ => []

/-- Modelled from the spec: the reserved resource-pointer marker content
type (the constant lives in manifest.go, which is not under src). -/
def ResourceContentType : String := "application/bzz-resource"

/-- Modelled from the spec: loadManifest materializes the manifest stored
at a key; a non-manifest block fails to parse and a missing block is not
found. -/
def loadManifest (d : DPA) (k : Key) : Except String (List ManifestEntry) :=
  match d.retrieve k with
  | some (.manifest es) => .ok es
  | some (.raw _) => .error "manifest parse failure"
  | none => .error "manifest not found"

/-- Modelled from the spec: getEntry returns the exact-path leaf when one
exists; when leaves strictly extend the path, a synthetic entry with the
Ambiguous (300) status; otherwise absent. -/
def getEntry (entries : List ManifestEntry) (path : String) : Option ManifestEntry :=
  match entries.find? (fun e => e.path == path) with
  | some e => some e
  | none =>
    if entries.any (fun e => path.isPrefixOf e.path) then
      some ⟨path, .key 0, "", 300⟩
    else none

/-- A mutable-resource update record; Multihash flags whether the payload
is a self-describing digest record. -/
structure ResourceUpdate where
  multihash : Bool
deriving DecidableEq, Repr

/-- Modelled from the spec: the resource collaborator — lookup of the
latest update for a name (LookupLatestByName) and retrieval of the update
payload (GetContent, returning a key and the payload bytes). -/
structure ResourceHandler where
  lookupLatest : String → Except String ResourceUpdate
  getContent : String → Except String (Key × List Nat)

/-- A decoded self-describing digest record: algorithm code, digest
length and digest bytes. -/
structure DecodedMultihash where
  code : Nat
  length : Nat
  digest : List Nat
deriving DecidableEq, Repr

/-- The KECCAK-256 multihash algorithm code, the store's content-hash
algorithm. -/
def KECCAK_256 : Nat := 27

/-- Modelled from the spec: multihash.Decode parses a self-describing
digest record (algorithm code, length, digest bytes); malformed records
fail.  The multihash package is not under src. -/
def multihashDecode : List Nat → Except String DecodedMultihash
  | code :: len :: rest =>
    if rest.length = len then .ok ⟨code, len, rest⟩
    else .error "multihash decode error"
  | _ => .error "multihash decode error"

/-- Modelled from the spec: the decoded digest bytes reinterpreted as a
store key (storage.Key(decodedMultihash.Digest)). -/
def digestKey (l : List Nat) : Key :=
  l.foldl (fun a b => a * 256 + b) 0

/-- Errors surfaced by Api.Get.  resourceReturn is the typed error
ErrResourceReturn carrying the resource name from the entry's hash
field. -/
inductive ApiError where
  | msg (s : String)
  | entryNotFound (path : String)
  | resourceReturn (key : String)
deriving DecidableEq, Repr

/-- The five results of Api.Get: the content reader (none models a nil
reader; some holds the bytes the reader yields), the MIME type, the
HTTP-style status, the content key and the error value. -/
structure GetResult where
  reader : Option (List Nat)
  mimeType : String
  status : Nat
  contentKey : Option Key
  err : Option ApiError
deriving DecidableEq, Repr

/-- The Api facade state used by Get: the content store and the resource
collaborator. -/
structure Api where
  dpa : DPA
  resource : ResourceHandler

/-- The tail of Api.Get once an entry is in hand (lines 405-414 of
api.go): the content key is decoded from the entry's hash, the entry's
status is returned, the 300 (ambiguous) case carries no reader, and
otherwise a reader over the content key is returned with the entry's
content type. -/
def Api.deliver (api : Api) (entry : ManifestEntry) : GetResult :=
  if entry.status = 300 then
    ⟨none, entry.contentType, entry.status, some entry.hash.toKey, none⟩
  else
    ⟨some (api.dpa.readerBytes entry.hash.toKey), entry.contentType, entry.status,
      some entry.hash.toKey, none⟩

/-- Api.Get: load the manifest, look up the path; a resource-pointer
entry is dereferenced through the resource collaborator — a
multihash-flagged payload is decoded and, when its algorithm matches, the
digest is followed as a new manifest root, while a non-multihash payload
short-circuits with the typed error ErrResourceReturn; ordinary entries
are delivered with a content reader.  In the mismatched-algorithm branch
the Go code returns the local err of the successful multihash.Decode
call, which is nil (the named return err is shadowed inside the
rsrc.Multihash block), so that branch carries no error value. -/
def Api.Get (api : Api) (manifestKey : Key) (path : String) : GetResult :=
  match loadManifest api.dpa manifestKey with
  | .error e => ⟨none, "", 404, none, some (.msg e)⟩
  | .ok entries =>
    match getEntry entries path with
    | none => ⟨none, "", 404, none, some (.entryNotFound path)⟩
    | some entry =>
      if entry.contentType = ResourceContentType then
        match api.resource.lookupLatest entry.hash.toName with
        | .error e => ⟨none, "", 404, none, some (.msg e)⟩
        | .ok rsrc =>
          match api.resource.getContent entry.hash.toName with
          | .error e => ⟨none, "", 404, none, some (.msg e)⟩
          | .ok (_, rsrcData) =>
            if rsrc.multihash then
              match multihashDecode rsrcData with
              | .error e => ⟨none, "", 500, none, some (.msg e)⟩
              | .ok dm =>
                if dm.code ≠ KECCAK_256 then
                  ⟨none, "", 422, none, none⟩
                else
                  match loadManifest api.dpa (digestKey dm.digest) with
                  | .error e => ⟨none, "", 404, none, some (.msg e)⟩
                  | .ok entries2 =>
                    match getEntry entries2 path with
                    | none => ⟨none, "", 404, none, some (.entryNotFound path)⟩
                    | some entry2 => api.deliver entry2
            else
              ⟨none, entry.contentType, 200, none, some (.resourceReturn entry.hash.toName)⟩
      else api.deliver entry

/-- Api.Put: store the content as one block, build the single-entry
manifest naming the content key and the content type, and store that
manifest as a second block, returning the manifest key.  The manifest
JSON has no path and no status field, so the entry carries the empty path
and a zero status. -/
def Api.Put (d : DPA) (content : List Nat) (contentType : String) : Key × DPA :=
  match d.store (.raw content) with
  | (ckey, d1) =>
    match d1.store (.manifest [⟨"", .key ckey, contentType, 0⟩]) with
    | (mkey, d2) => (mkey, d2)

/-- A byte reader with a position, over the bytes a content reader
yields. -/
structure GoReader where
  data : List Nat
  pos : Nat
deriving DecidableEq, Repr

/-- Modelled from the spec: io.ReadAtLeast over a reader whose Read
returns all bytes still available.  Nothing is read when minB exceeds the
destination length (ErrShortBuffer) or when minB is not positive (the
read loop never runs); otherwise the available bytes are copied into the
front of the destination, up to its length.  Returns the advanced reader
and the bytes written. -/
def readAtLeast (r : GoReader) (bufLen : Nat) (minB : Int) : GoReader × List Nat :=
  if minB > (bufLen : Int) then (r, [])
  else if minB ≤ 0 then (r, [])
  else
    let avail := r.data.drop r.pos
    let k := Nat.min bufLen avail.length
    (⟨r.data, r.pos + k⟩, avail.take k)

/-- Overlay bytes into a buffer starting at a given position (the Go copy
performed by reading into a slice of the buffer). -/
def writeBytes (buf : List Nat) (start : Nat) (bs : List Nat) : List Nat :=
  buf.take start ++ bs ++ buf.drop (start + bs.length)

/-- The buffer-size computation at the top of Api.AppendFile:
offset+addSize, raised to existingSize when smaller. -/
def appendBuffSize (offset addSize existingSize : Int) : Int :=
  if offset + addSize < existingSize then existingSize else offset + addSize

/-- Api.AppendFile's combined-buffer computation up to (but not
including) the guarded tail copy: allocate the buffer, read the old
content with minimum offset, then read the new content into buf[offset:]
with minimum addSize.  none models a Go panic (a negative allocation size
or an out-of-range slice of the buffer).  The advanced old reader is also
returned, ready for the guarded tail copy. -/
def appendFileCore (old content : List Nat) (existingSize offset addSize : Int) :
    Option (GoReader × List Nat) :=
  let buffSize := appendBuffSize offset addSize existingSize
  if buffSize < 0 then none
  else
    let buf0 := List.replicate buffSize.toNat 0
    match readAtLeast ⟨old, 0⟩ buf0.length offset with
    | (r1, b1) =>
      let buf1 := writeBytes buf0 0 b1
      if offset < 0 ∨ buffSize < offset then none
      else
        match readAtLeast ⟨content, 0⟩ (buf1.length - offset.toNat) addSize with
        | (_, b2) => some (r1, writeBytes buf1 offset.toNat b2)

/-- The full combined-buffer computation of Api.AppendFile, including the
tail copy guarded by buffSize < existingSize, which slices buf[addSize:]
(a panic, modelled none, when addSize is out of range) and reads the rest
of the old content with minimum buffSize. -/
def appendFileBuffer (old content : List Nat) (existingSize offset addSize : Int) :
    Option (List Nat) :=
  match appendFileCore old content existingSize offset addSize with
  | none => none
  | some (r1, buf) =>
    let buffSize := appendBuffSize offset addSize existingSize
    if buffSize < existingSize then
      if addSize < 0 ∨ buffSize < addSize then none
      else
        match readAtLeast r1 (buf.length - addSize.toNat) buffSize with
        | (_, b3) => some (writeBytes buf addSize.toNat b3)
    else some buf

/-- The leading-slash trim shared by Api.AddFile, Api.RemoveFile and
Api.AppendFile: the Go statement `if path[:1] == "/" { path = path[1:] }`.
Slicing path[:1] panics (modelled none) when the path is empty. -/
def trimRootSlash (path : String) : Option String :=
  if path.length < 1 then none
  else if path.take 1 = "/" then some (path.drop 1)
  else some path

/-- C9: for AddFile, RemoveFile and AppendFile, the leading-slash trim
path[:1] indexes out of range exactly when the directory-path argument is
the empty string (a panic, not an error return); on every non-empty path
the trim evaluates safely. -/
theorem c9_trim_panics_iff_empty (p : String) :
    (trimRootSlash p = none ↔ p = "") := by
  obtain ⟨l⟩ := p
  cases l with
  | nil => simp [trimRootSlash, String.length]
  | cons c cs =>
    unfold trimRootSlash
    constructor
    · intro h
      rw [if_neg (by simp [String.length])] at h
      split at h <;> simp_all
    · intro h
      simp [String.ext_iff] at h

/-- C10: after buffSize is raised to the maximum of offset+addSize and
existingSize, the guard buffSize < existingSize protecting the explicit
tail read of the old content is false on every input, so the guarded read
never executes and the combined buffer is exactly the one produced before
the guard (the old content past offset+addSize is never explicitly
copied). -/
theorem c10_tail_copy_dead (old content : List Nat) (existingSize offset addSize : Int) :
    ¬ (appendBuffSize offset addSize existingSize < existingSize) ∧
    appendFileBuffer old content existingSize offset addSize =
      (appendFileCore old content existingSize offset addSize).map (fun p => p.2) := by
  have hguard : ¬ (appendBuffSize offset addSize existingSize < existingSize) := by
    unfold appendBuffSize
    split
    · omega
    · omega
  refine ⟨hguard, ?_⟩
  unfold appendFileBuffer
  cases h : appendFileCore old content existingSize offset addSize with
  | none => rfl
  | some p =>
    obtain ⟨r1, buf⟩ := p
    simp [hguard]

/-- C4 (failing input): AppendFile with old content [7, 8] of declared
size 2, new content [1], offset 0 and addSize 1 builds the combined
buffer [1, 0] — the trailing byte is the zero of the freshly allocated
buffer, not byte 8 of the old content, because no read with a positive
minimum ever touches the old content tail and the guarded tail copy is
dead; the claimed buffer newContent ++ old[addSize:N) = [1, 8] is not
produced. -/
theorem c4_append_code_eval :
    appendFileBuffer [7, 8] [1] 2 0 1 = some [1, 0] ∧
    appendFileBuffer [7, 8] [1] 2 0 1 ≠ some ([1] ++ ([7, 8].drop 1)) := by
  constructor
  · rfl
  · decide

/-- C7: a URI classified as immutable is never sent to the resolver —
Api.Resolve computes the same result under any two resolver
configurations — and its result is the parsed content hash, or an
invalid-address failure when the address is not a well-formed hash. -/
theorem c7_immutable_never_resolved
    (dns1 dns2 : Option (String → Hash × Option String)) (uri : URI)
    (himm : uri.immutable = true) :
    Api.Resolve dns1 uri = Api.Resolve dns2 uri ∧
    Api.Resolve dns1 uri = (match uri.key with
      | some k => .ok k
      | none => .error (.invalidAddress uri.addr)) := by
  unfold Api.Resolve
  rw [himm]
  cases uri.key <;> simp

/-- Witness for C7, at an immutable URI whose address parses as hash 5: a
resolver that would resolve to 9 and an absent resolver give the same
result, namely the parsed hash. -/
theorem c7_witness :
    Api.Resolve (some fun _ => ((9 : Hash), none)) ⟨true, some 5, "addr"⟩ =
        Api.Resolve none ⟨true, some 5, "addr"⟩ ∧
    Api.Resolve (some fun _ => ((9 : Hash), none)) ⟨true, some 5, "addr"⟩ =
        .ok 5 :=
  c7_immutable_never_resolved (some fun _ => ((9 : Hash), none)) none ⟨true, some 5, "addr"⟩ rfl

/-- C8: for a non-immutable URI with a resolver configured whose
resolution fails, Api.Resolve parses the address as a content hash as a
last resort and returns that hash when parsing succeeds; the chain's
error is surfaced only when hash parsing also fails. -/
theorem c8_hash_fallback_on_chain_failure
    (f : String → Hash × Option String) (uri : URI) (e : String)
    (himm : uri.immutable = false)
    (hfail : (f uri.addr).2 = some e) :
    Api.Resolve (some f) uri = (match uri.key with
      | some k => .ok k
      | none => .error (.dnsFail e)) := by
  unfold Api.Resolve
  rw [himm]
  cases hres : f uri.addr with
  | mk h o =>
    rw [hres] at hfail
    simp at hfail
    subst hfail
    cases uri.key <;> simp [hres]

/-- Witness for C8, at a non-immutable URI whose address is not a hash
and a resolver that always fails: the chain's error is surfaced. -/
theorem c8_witness :
    Api.Resolve (some fun _ => ((0 : Hash), some "chain failure")) ⟨false, none, "nm"⟩ =
      .error (.dnsFail "chain failure") :=
  c8_hash_fallback_on_chain_failure (fun _ => ((0 : Hash), some "chain failure"))
    ⟨false, none, "nm"⟩ "chain failure" rfl rfl

/-- When every backend of a non-empty chain fails, the backend loop of
MultiResolver.Resolve returns the last backend's hash and wrapped error,
whatever result it was carrying. -/
theorem resolveLoop_last_of_all_fail (name : String) :
    ∀ (chain : List ResolveValidator) (hne : chain ≠ [])
      (acc : Hash × Option ResolveError),
      (∀ r ∈ chain, ((r.resolve name).2).isSome) →
      MultiResolver.resolveLoop name acc chain =
        (((chain.getLast hne).resolve name).1,
         (((chain.getLast hne).resolve name).2).map ResolveError.backend) := by
  intro chain
  induction chain with
  | nil => intro hne; exact absurd rfl hne
  | cons r rest ih =>
    intro hne acc hfail
    have hr : ((r.resolve name).2).isSome := hfail r (List.mem_cons_self r rest)
    obtain ⟨e, he⟩ := Option.isSome_iff_exists.mp hr
    cases rest with
    | nil =>
      cases hres : r.resolve name with
      | mk h o =>
        rw [hres] at he
        have he2 : o = some e := he
        subst he2
        simp [MultiResolver.resolveLoop, hres]
    | cons r2 rs =>
      cases hres : r.resolve name with
      | mk h o =>
        rw [hres] at he
        subst he
        rw [List.getLast_cons (by simp)]
        simp only [MultiResolver.resolveLoop, hres]
        exact ih (by simp) (h, some (.backend e))
          (fun b hb => hfail b (List.mem_cons_of_mem r hb))

/-- C1: when the name's TLD has a registered chain, MultiResolver.Resolve
is decided entirely by that chain: if all of its backends fail, the
result is the last backend's failure, for every resolver map with that
registration — in particular the default (empty-TLD) chain is never
consulted, even when it would succeed. -/
theorem c1_tld_chain_is_exclusive (m : MultiResolver) (name : String)
    (chain : List ResolveValidator) (hne : chain ≠ [])
    (hext : pathExt name ≠ "")
    (hreg : m.resolvers ((pathExt name).drop 1) = some chain)
    (hfail : ∀ r ∈ chain, ((r.resolve name).2).isSome) :
    m.Resolve name =
      (((chain.getLast hne).resolve name).1,
       (((chain.getLast hne).resolve name).2).map ResolveError.backend) := by
  simp only [MultiResolver.Resolve, MultiResolver.getResolveValidator, if_neg hext, hreg]
  exact resolveLoop_last_of_all_fail name chain hne (0, none) hfail

/-- A backend that always fails. -/
def failBackend : ResolveValidator := ⟨fun _ => (0, some "resolver failure")⟩

/-- A backend that always succeeds with hash 42. -/
def okBackend : ResolveValidator := ⟨fun _ => (42, none)⟩

/-- The spec's chain scenario: a default chain (for TLD "") that would
succeed, and a chain for TLD "test" whose single backend always fails. -/
def mrTest : MultiResolver :=
  ⟨fun t => if t = "test" then some [failBackend]
    else if t = "" then some [okBackend] else none⟩

/-- Witness for C1: resolving "x.test" against mrTest returns the failing
"test"-chain backend's failure even though the default chain would
resolve to 42. -/
theorem c1_witness :
    mrTest.Resolve "x.test" = (0, some (.backend "resolver failure")) := by
  have h := c1_tld_chain_is_exclusive mrTest "x.test" [failBackend] (by simp)
    (by decide) (by rfl) (by simp [failBackend])
  simpa [failBackend] using h

/-- On every chain the backend loop of MultiResolver.Resolve, started
from the initial named-return values, agrees with the spec's in-order
resolution (non-empty chains; both sides return the initial values on the
empty chain). -/
theorem resolveLoop_eq_specTryChain (name : String) :
    ∀ (chain : List ResolveValidator), chain ≠ [] → ∀ acc,
      MultiResolver.resolveLoop name acc chain = specTryChain name chain := by
  intro chain
  induction chain with
  | nil => intro h; exact absurd rfl h
  | cons r rest ih =>
    intro _ acc
    cases hres : r.resolve name with
    | mk h o =>
      cases o with
      | none =>
        simp [MultiResolver.resolveLoop, specTryChain, hres, backendResult]
      | some e =>
        cases rest with
        | nil => simp [MultiResolver.resolveLoop, specTryChain, hres, backendResult]
        | cons r2 rs =>
          simp only [MultiResolver.resolveLoop, specTryChain, hres, Option.isNone_some,
            Bool.false_eq_true, if_false]
          exact ih (by simp) (h, some (.backend e))

/-- Under the well-formedness invariant that registration guarantees
(every registered chain is non-empty), MultiResolver.getResolveValidator
agrees with the spec's chain selection. -/
theorem getResolveValidator_eq_specSelectChain (m : MultiResolver) (name : String)
    (hwf : ∀ t c, m.resolvers t = some c → c ≠ []) :
    m.getResolveValidator name = specSelectChain m name := by
  unfold MultiResolver.getResolveValidator specSelectChain specTLD
  by_cases hext : pathExt name = ""
  · rw [hext]
    simp only [if_pos rfl, String.drop_empty]
    cases hd : m.resolvers "" with
    | none => simp
    | some c =>
      have hc := hwf "" c hd
      simp [List.length_eq_zero, hc]
  · simp only [if_neg hext]
    cases ht : m.resolvers ((pathExt name).drop 1) with
    | some c => simp
    | none =>
      simp only
      cases hd : m.resolvers "" with
      | none => simp
      | some c =>
        have hc := hwf "" c hd
        simp [List.length_eq_zero, hc]

/-- C6: under the registration invariant (no registered chain is empty),
MultiResolver.Resolve is exactly the spec's resolution policy: select the
chain for the name's exact TLD, otherwise the default chain, failing with
NoResolver(tld) when neither exists; within the selected chain return the
first backend success, and when all backends fail, the last backend's
failure. -/
theorem c6_resolve_refines_spec (m : MultiResolver) (name : String)
    (hwf : ∀ t c, m.resolvers t = some c → c ≠ []) :
    m.Resolve name = specResolve m name := by
  unfold MultiResolver.Resolve specResolve
  rw [getResolveValidator_eq_specSelectChain m name hwf]
  cases hsel : specSelectChain m name with
  | error e => rfl
  | ok c =>
    cases c with
    | nil => rfl
    | cons r rest => exact resolveLoop_eq_specTryChain name (r :: rest) (by simp) (0, none)

/-- Witness for C6: the source resolver and the spec policy agree on
mrTest (whose chains are all non-empty) at the name "x.test". -/
theorem c6_witness : mrTest.Resolve "x.test" = specResolve mrTest "x.test" := by
  apply c6_resolve_refines_spec
  intro t c h
  simp only [mrTest] at h
  split at h
  · cases h; simp
  · split at h
    · cases h; simp
    · cases h

/-- C2 (amended): a get on a resource-pointer entry whose resource
payload is not multihash-flagged produces no content reader and no
content key, returns the entry's content type (the resource-pointer
marker) with HTTP 200, and signals the outcome by the distinguished typed
error ErrResourceReturn, carrying the resource name, in the error
position. -/
theorem c2_resource_raw_short_circuit (api : Api) (mk : Key) (path : String)
    (entries : List ManifestEntry) (entry : ManifestEntry) (ck : Key) (data : List Nat)
    (h1 : loadManifest api.dpa mk = .ok entries)
    (h2 : getEntry entries path = some entry)
    (h3 : entry.contentType = ResourceContentType)
    (h4 : api.resource.lookupLatest entry.hash.toName = .ok ⟨false⟩)
    (h5 : api.resource.getContent entry.hash.toName = .ok (ck, data)) :
    api.Get mk path =
      ⟨none, ResourceContentType, 200, none, some (.resourceReturn entry.hash.toName)⟩ := by
  unfold Api.Get
  rw [h1]
  simp only [h2, h3, if_pos rfl, h4, h5]
  simp

/-- A concrete resource-pointer scenario: block 0 is a pathless manifest
whose single entry is the resource pointer for resource name "rn"; the
resource collaborator knows "rn", with a non-multihash payload [5, 6]. -/
def c2api : Api :=
  ⟨⟨[.manifest [⟨"", .name "rn", ResourceContentType, 0⟩]]⟩,
   ⟨fun n => if n = "rn" then .ok ⟨false⟩ else .error "resource not found",
    fun n => if n = "rn" then .ok (0, [5, 6]) else .error "resource not found"⟩⟩

/-- Witness for C2 (amended) on the concrete scenario c2api. -/
theorem c2_witness :
    c2api.Get 0 "" =
      ⟨none, ResourceContentType, 200, none, some (.resourceReturn "rn")⟩ :=
  c2_resource_raw_short_circuit c2api 0 "" [⟨"", .name "rn", ResourceContentType, 0⟩]
    ⟨"", .name "rn", ResourceContentType, 0⟩ 0 [5, 6] rfl rfl rfl rfl rfl

/-- Counterexample to C2 as stated: on the concrete scenario c2api the
"resource data" outcome is not delivered on a non-error channel
structurally separate from the error channel — the error component of the
result is occupied (by the typed ErrResourceReturn value), and the
returned content type is the resource-pointer marker taken from the
manifest entry, not a content type of the raw payload. -/
theorem c2_counterexample :
    (c2api.Get 0 "").err ≠ none ∧
    (c2api.Get 0 "").err = some (.resourceReturn "rn") ∧
    (c2api.Get 0 "").mimeType = ResourceContentType := by
  refine ⟨?_, rfl, rfl⟩
  intro h
  simp only [c2api] at h
  revert h
  decide

/-- The failing input for C3: block 0 is the resource-pointer manifest
for resource name "rn"; the resource collaborator returns a
multihash-flagged update whose payload decodes to algorithm code 99 with
a one-byte digest — a valid record whose algorithm is not KECCAK-256. -/
def c3api : Api :=
  ⟨⟨[.manifest [⟨"", .name "rn", ResourceContentType, 0⟩]]⟩,
   ⟨fun n => if n = "rn" then .ok ⟨true⟩ else .error "resource not found",
    fun n => if n = "rn" then .ok (0, [99, 1, 5]) else .error "resource not found"⟩⟩

/-- C3 (evaluation at the failing input): the payload decodes to a valid
digest record with algorithm code 99 ≠ KECCAK-256, and Api.Get returns
status 422 with no content reader but with a nil error value — the err
returned in this branch is the shadowed local err of the successful
multihash.Decode call — instead of failing with an UnsupportedDigest
error as the claim (and the spec's error taxonomy) require. -/
theorem c3_mismatched_digest_code_eval :
    multihashDecode [99, 1, 5] = .ok ⟨99, 1, [5]⟩ ∧
    (99 : Nat) ≠ KECCAK_256 ∧
    c3api.Get 0 "" = ⟨none, "", 422, none, none⟩ := by
  refine ⟨rfl, by decide, ?_⟩
  rfl

/-- Looking up the first of the two blocks appended by Put. -/
theorem blocks_lookup_first (l : List Block) (a b : Block) :
    ((l ++ [a]) ++ [b])[l.length]? = some a := by
  rw [List.append_assoc, List.getElem?_append_right (by simp)]
  simp

/-- Looking up the second of the two blocks appended by Put. -/
theorem blocks_lookup_last (l : List Block) (a b : Block) :
    ((l ++ [a]) ++ [b])[l.length + 1]? = some b := by
  rw [List.getElem?_append_right (by simp)]
  simp

/-- C5 (amended): for every content and every content type other than the
resource-pointer marker, Put stores the content as one block and the
single-entry manifest referencing the content key as a second block, and
Get on the returned manifest key with the empty path yields a reader over
bytes identical to the content together with the stored content type. -/
theorem c5_put_get_roundtrip (d : DPA) (res : ResourceHandler) (content : List Nat)
    (contentType : String) (hct : contentType ≠ ResourceContentType) :
    (Api.Get ⟨(Api.Put d content contentType).2, res⟩
        (Api.Put d content contentType).1 "").reader = some content ∧
    (Api.Get ⟨(Api.Put d content contentType).2, res⟩
        (Api.Put d content contentType).1 "").mimeType = contentType ∧
    (Api.Put d content contentType).2.blocks =
      d.blocks ++ [.raw content, .manifest [⟨"", .key d.blocks.length, contentType, 0⟩]] := by
  have hput : Api.Put d content contentType =
      (d.blocks.length + 1,
       ⟨(d.blocks ++ [.raw content]) ++
         [.manifest [⟨"", .key d.blocks.length, contentType, 0⟩]]⟩) := by
    simp [Api.Put, DPA.store]
  have hload : loadManifest
      ⟨(d.blocks ++ [.raw content]) ++
        [.manifest [⟨"", .key d.blocks.length, contentType, 0⟩]]⟩ (d.blocks.length + 1) =
      .ok [⟨"", .key d.blocks.length, contentType, 0⟩] := by
    unfold loadManifest DPA.retrieve
    rw [show (DPA.mk ((d.blocks ++ [.raw content]) ++
        [.manifest [⟨"", .key d.blocks.length, contentType, 0⟩]])).blocks =
        (d.blocks ++ [.raw content]) ++
        [.manifest [⟨"", .key d.blocks.length, contentType, 0⟩]] from rfl]
    rw [blocks_lookup_last]
  have hentry : getEntry [⟨"", .key d.blocks.length, contentType, 0⟩] "" =
      some ⟨"", .key d.blocks.length, contentType, 0⟩ := rfl
  have hreader : DPA.readerBytes
      ⟨d.blocks ++ [.raw content,
        .manifest [⟨"", .key d.blocks.length, contentType, 0⟩]]⟩ d.blocks.length =
      content := by
    unfold DPA.readerBytes DPA.retrieve
    rw [show (DPA.mk (d.blocks ++ [.raw content,
        .manifest [⟨"", .key d.blocks.length, contentType, 0⟩]])).blocks =
        (d.blocks ++ [.raw content]) ++
        [.manifest [⟨"", .key d.blocks.length, contentType, 0⟩]] by simp]
    rw [blocks_lookup_first]
  have hget : Api.Get
      ⟨⟨(d.blocks ++ [.raw content]) ++
          [.manifest [⟨"", .key d.blocks.length, contentType, 0⟩]]⟩, res⟩
      (d.blocks.length + 1) "" =
      ⟨some content, contentType, 0, some d.blocks.length, none⟩ := by
    unfold Api.Get
    rw [show (Api.mk ⟨(d.blocks ++ [.raw content]) ++
        [.manifest [⟨"", .key d.blocks.length, contentType, 0⟩]]⟩ res).dpa =
        ⟨(d.blocks ++ [.raw content]) ++
          [.manifest [⟨"", .key d.blocks.length, contentType, 0⟩]]⟩ from rfl]
    rw [hload]
    simp only [hentry, if_neg hct, Api.deliver]
    simp [hreader, EntryHash.toKey]
  rw [hput]
  refine ⟨?_, ?_, ?_⟩
  · rw [hget]
  · rw [hget]
  · simp

/-- A resource collaborator that knows no resource. -/
def dummyRes : ResourceHandler :=
  ⟨fun _ => .error "resource not found", fun _ => .error "resource not found"⟩

/-- Witness for C5 (amended): the roundtrip on the empty store with
content [1, 2] and content type "text/plain". -/
theorem c5_witness :
    (Api.Get ⟨(Api.Put ⟨[]⟩ [1, 2] "text/plain").2, dummyRes⟩
        (Api.Put ⟨[]⟩ [1, 2] "text/plain").1 "").reader = some [1, 2] ∧
    (Api.Get ⟨(Api.Put ⟨[]⟩ [1, 2] "text/plain").2, dummyRes⟩
        (Api.Put ⟨[]⟩ [1, 2] "text/plain").1 "").mimeType = "text/plain" ∧
    (Api.Put ⟨[]⟩ [1, 2] "text/plain").2.blocks =
      ([] : List Block) ++ [.raw [1, 2],
        .manifest [⟨"", .key (([] : List Block)).length, "text/plain", 0⟩]] :=
  c5_put_get_roundtrip ⟨[]⟩ dummyRes [1, 2] "text/plain" (by decide)

/-- Counterexample to C5 as universally stated: with contentType equal to
the resource-pointer marker, Put stores a manifest whose entry Get treats
as a resource pointer; on the empty store with content [1], Get then
fails the resource lookup (404, no reader) instead of yielding the
content and its MIME type. -/
theorem c5_counterexample :
    ¬ ((Api.Get ⟨(Api.Put ⟨[]⟩ [1] ResourceContentType).2, dummyRes⟩
          (Api.Put ⟨[]⟩ [1] ResourceContentType).1 "").reader = some [1] ∧
       (Api.Get ⟨(Api.Put ⟨[]⟩ [1] ResourceContentType).2, dummyRes⟩
          (Api.Put ⟨[]⟩ [1] ResourceContentType).1 "").mimeType = ResourceContentType) := by
  intro h
  have hr := h.1
  rw [show (Api.Get ⟨(Api.Put ⟨[]⟩ [1] ResourceContentType).2, dummyRes⟩
      (Api.Put ⟨[]⟩ [1] ResourceContentType).1 "").reader = none from rfl] at hr
  exact Option.noConfusion hr
